import Mathlib

/-!
Verification of the iptables bootup/reconcile engine of the npm `policies`
package (file `npm/pkg/dataplane/policies` bootup/reconcile source, given as
`src/unnamed/part_011`).

Shallow embedding conventions:
- OS command execution is abstracted by `ExecResult` values supplied by the
  environment: a command either succeeds, fails with an exit status (the Go
  `utilexec.ExitError` case), or fails in some other way (binary not
  startable, etc.).
- The `util` package string constants are not part of the provided sources;
  they are plain named string constants and are modelled below.  Only their
  distinctness is relied upon.
- Go maps that are used as string sets are modelled as duplicate-free lists;
  membership is the only property the code relies on.
-/

set_option autoImplicit false

namespace AzureNpm

/-! Section: Constants of the `util` package.

Modelled from the spec: the `npm/util` package is not among the provided
source files.  The spec names the base chains (root dispatch chain
`AZURE-NPM`, ingress, egress, ingress-allow-mark and accept chains) and the
payload directives; the remaining constants are opaque distinct strings. -/

def IptablesAzureChain : String := "AZURE-NPM"

def IptablesAzureIngressChain : String := "AZURE-NPM-INGRESS"

def IptablesAzureIngressAllowMarkChain : String := "AZURE-NPM-INGRESS-ALLOW-MARK"

def IptablesAzureEgressChain : String := "AZURE-NPM-EGRESS"

def IptablesAzureAcceptChain : String := "AZURE-NPM-ACCEPT"

def IptablesForwardChain : String := "FORWARD"

def IptablesKubeServicesChain : String := "KUBE-SERVICES"

def IptablesAppendFlag : String := "-A"

def IptablesJumpFlag : String := "-j"

def IptablesModuleFlag : String := "-m"

def IptablesCtstateModuleFlag : String := "conntrack"

def IptablesCtstateFlag : String := "--ctstate"

def IptablesNewState : String := "NEW"

def IptablesMarkVerb : String := "mark"

def IptablesMarkFlag : String := "--mark"

def IptablesDrop : String := "DROP"

def IptablesAccept : String := "ACCEPT"

def IptablesRestoreCommit : String := "COMMIT"

def IptablesAzureIngressDropMarkHex : String := "0x4000"

def IptablesAzureEgressDropMarkHex : String := "0x5000"

def IptablesAzureIngressAllowMarkHex : String := "0x2000"

/-- Source `const` block: `doesNotExistErrorCode int = 1`. -/
def doesNotExistErrorCode : Int := 1

/-- Source `const` block: `couldntLoadTargetErrorCode int = 2`. -/
def couldntLoadTargetErrorCode : Int := 2

/-! Section: The command executor / error classifier. -/

/-- Outcome of running one OS command (`command.CombinedOutput()` in Go):
success, failure carrying an exit status (`utilexec.ExitError`), or a
failure that is not an exit-status error (e.g. the binary could not be
started). -/
inductive ExecResult where
  | success (output : String)
  | exitErr (code : Int) (output : String)
  | otherErr (output : String)
deriving DecidableEq

/-- Source `type exitErrorInfo struct`. -/
structure ExitErrorInfo where
  exitCode : Int
  stdErr : String
  messageToLog : String
deriving DecidableEq

/-- Go `strings.Contains s sub`. -/
def stringContains (s sub : String) : Bool :=
  s.toList.tails.any (fun t => sub.toList.isPrefixOf t)

/-- Go `strings.TrimSuffix(s, "\n")`: removes one trailing newline if
present (stated on the character list underlying the string). -/
def trimNewlineSuffix (s : String) : String :=
  if s.data.getLast? = some '\n' then String.mk s.data.dropLast else s

/-- Source `removeDeprecatedJumpIgnoredErrors` table. -/
def removeDeprecatedJumpIgnoredErrors : List ExitErrorInfo :=
  [ { exitCode := doesNotExistErrorCode,
      stdErr := "No chain/target/match by that name",
      messageToLog := "didn't delete deprecated jump rule from FORWARD chain to AZURE-NPM chain likely because NPM v1 was not used prior" },
    { exitCode := couldntLoadTargetErrorCode,
      stdErr := "Couldn't load target `AZURE-NPM':No such file or directory",
      messageToLog := "didn't delete deprecated jump rule from FORWARD chain to AZURE-NPM chain likely because AZURE-NPM chain doesn't exist" },
    { exitCode := couldntLoadTargetErrorCode,
      stdErr := "Chain 'AZURE-NPM' does not exist",
      messageToLog := "in nft tables, didn't delete deprecated jump rule from FORWARD chain to AZURE-NPM chain likely because AZURE-NPM chain doesn't exist" },
    { exitCode := doesNotExistErrorCode,
      stdErr := "Bad rule (does a matching rule exist in that chain?)",
      messageToLog := "probably tried to delete a jump rule that didn't exist in nft tables" } ]

/-- Source `PolicyManager.ignoreErrorsAndRunIPTablesCommand`, given the
outcome of the underlying command.  Returns the exit code together with an
optional error; a returned error wraps the exit status and the captured
(trailing-newline-trimmed) output, modelled as the pair `(code, output)`.
When the execution error is not an exit-status error (including when there
is no error at all) the Go function falls through to `return 0, nil`. -/
def ignoreErrorsAndRunIPTablesCommand (ignored : List ExitErrorInfo)
    (res : ExecResult) : Int × Option (Int × String) :=
  match res with
  | .exitErr errCode output =>
      let outputString := trimNewlineSuffix output
      match ignored.find? (fun info =>
          info.exitCode == errCode && stringContains outputString info.stdErr) with
      | some _ => (errCode, none)
      | none => (errCode, some (errCode, outputString))
  | _ => (0, none)

/-- Source `PolicyManager.runIPTablesCommand`: delegates with a `nil`
ignore table. -/
def runIPTablesCommand (res : ExecResult) : Int × Option (Int × String) :=
  ignoreErrorsAndRunIPTablesCommand [] res

/-! Section: The stale-chain set. -/

/-- Source `iptablesAzureChains` slice. -/
def iptablesAzureChains : List String :=
  [ IptablesAzureChain,
    IptablesAzureIngressChain,
    IptablesAzureIngressAllowMarkChain,
    IptablesAzureEgressChain,
    IptablesAzureAcceptChain ]

/-- Source `isBaseChain`: membership in `iptablesAzureChains` (the Go code
lazily builds `iptablesAzureChainsMap` from the slice; the net semantics is
slice membership). -/
def isBaseChain (chain : String) : Bool :=
  iptablesAzureChains.contains chain

/-- Source `type staleChains struct`; the Go `map[string]struct{}` set is a
duplicate-free list of chain names. -/
structure StaleChains where
  chainsToCleanup : List String
deriving DecidableEq

/-- Source `newStaleChains`. -/
def newStaleChains : StaleChains := ⟨[]⟩

/-- Source `staleChains.add`: inserts unless the chain is a base chain. -/
def StaleChains.add (s : StaleChains) (chain : String) : StaleChains :=
  if ¬ isBaseChain chain then
    if s.chainsToCleanup.contains chain then s else ⟨chain :: s.chainsToCleanup⟩
  else s

/-- Source `staleChains.remove` (Go `delete` on the map). -/
def StaleChains.remove (s : StaleChains) (chain : String) : StaleChains :=
  ⟨s.chainsToCleanup.filter (fun c => ¬ c == chain)⟩

/-- Source `staleChains.emptyAndGetAll`: returns all members and the emptied
set (the Go loop copies each key into the result slice and removes it). -/
def StaleChains.emptyAndGetAll (s : StaleChains) : List String × StaleChains :=
  (s.chainsToCleanup, ⟨[]⟩)

/-- Source `staleChains.empty`. -/
def StaleChains.emptyAll (s : StaleChains) : StaleChains :=
  ⟨[]⟩

/-- One call against the stale-chain set. -/
inductive StaleOp where
  | addOp (chain : String)
  | removeOp (chain : String)
  | emptyAndGetAllOp
deriving DecidableEq

/-- Apply one call to the set. -/
def StaleChains.applyOp (s : StaleChains) : StaleOp → StaleChains
  | .addOp chain => s.add chain
  | .removeOp chain => s.remove chain
  | .emptyAndGetAllOp => s.emptyAndGetAll.2

/-- Run a sequence of calls starting from `newStaleChains`. -/
def runStaleOps (ops : List StaleOp) : StaleChains :=
  ops.foldl StaleChains.applyOp newStaleChains

/-- The stale set never holds a base chain. -/
def noBaseChains (s : StaleChains) : Prop :=
  ∀ c ∈ s.chainsToCleanup, isBaseChain c = false

theorem StaleChains.add_noBase {s : StaleChains} (h : noBaseChains s)
    (chain : String) : noBaseChains (s.add chain) := by
  unfold StaleChains.add
  split
  · split
    · exact h
    · intro c hc
      rcases List.mem_cons.mp hc with hc | hc
      · subst hc
        simp_all
      · exact h c hc
  · exact h

theorem StaleChains.applyOp_noBase {s : StaleChains} (h : noBaseChains s)
    (op : StaleOp) : noBaseChains (s.applyOp op) := by
  cases op with
  | addOp chain => exact StaleChains.add_noBase h chain
  | removeOp chain =>
      intro c hc
      exact h c (List.mem_of_mem_filter hc)
  | emptyAndGetAllOp =>
      intro c hc
      exact absurd hc (List.not_mem_nil c)

theorem runStaleOps_noBase (ops : List StaleOp) : noBaseChains (runStaleOps ops) := by
  have general : ∀ (l : List StaleOp) (s : StaleChains), noBaseChains s →
      noBaseChains (l.foldl StaleChains.applyOp s) := by
    intro l
    induction l with
    | nil => intro s hs; exact hs
    | cons op rest ih =>
        intro s hs
        exact ih (s.applyOp op) (StaleChains.applyOp_noBase hs op)
  refine general ops newStaleChains ?_
  intro c hc
  simp [newStaleChains] at hc

/-- Claim C1: for every sequence of `add`/`emptyAndGetAll` (and `remove`)
calls on the stale-chain set, no base chain name (element of the fixed
`iptablesAzureChains` list) is ever a member of the set or an element of the
list returned by `emptyAndGetAll`, and `add chain` is a no-op whenever
`chain` is a base chain. -/
theorem staleChains_never_holds_base_chain :
    (∀ ops : List StaleOp, ∀ c ∈ iptablesAzureChains,
        c ∉ (runStaleOps ops).chainsToCleanup)
    ∧ (∀ ops : List StaleOp, ∀ c ∈ iptablesAzureChains,
        c ∉ ((runStaleOps ops).emptyAndGetAll).1)
    ∧ (∀ s : StaleChains, ∀ c ∈ iptablesAzureChains, s.add c = s) := by
  have base_of_mem : ∀ c ∈ iptablesAzureChains, isBaseChain c = true := by
    intro c hc
    simpa [isBaseChain] using hc
  refine ⟨?_, ?_, ?_⟩
  · intro ops c hc hmem
    have := runStaleOps_noBase ops c hmem
    rw [base_of_mem c hc] at this
    exact Bool.noConfusion this
  · intro ops c hc hmem
    have hmem' : c ∈ (runStaleOps ops).chainsToCleanup := hmem
    have := runStaleOps_noBase ops c hmem'
    rw [base_of_mem c hc] at this
    exact Bool.noConfusion this
  · intro s c hc
    unfold StaleChains.add
    simp [base_of_mem c hc]

/-- Concrete run of Claim C1: adding the root chain `AZURE-NPM` to a
non-trivial stale set is a no-op, and after adding it alongside a policy
chain it is absent from the drained list. -/
theorem staleChains_never_holds_base_chain_witness :
    StaleChains.add ⟨["OLD-POLICY-CHAIN"]⟩ "AZURE-NPM" = ⟨["OLD-POLICY-CHAIN"]⟩
    ∧ "AZURE-NPM" ∉
        ((runStaleOps [StaleOp.addOp "AZURE-NPM", StaleOp.addOp "OLD-POLICY-CHAIN"]).emptyAndGetAll).1 := by
  refine ⟨?_, ?_⟩
  · exact staleChains_never_holds_base_chain.2.2 ⟨["OLD-POLICY-CHAIN"]⟩ "AZURE-NPM" (by decide)
  · exact staleChains_never_holds_base_chain.2.1
      [StaleOp.addOp "AZURE-NPM", StaleOp.addOp "OLD-POLICY-CHAIN"] "AZURE-NPM" (by decide)

/-! Section: Claims about the command executor (C8, C10). -/

/-- Claim C8: for every command run through the error-classifying executor
with an ignore table, if the command exits with status `code` and some table
entry matches (`entry.exitCode = code` and the captured trailing-newline-
trimmed output contains `entry.stdErr`), the call returns `(code, nil)` —
classified as success; if no entry matches, the call returns `code` together
with a non-nil error wrapping the exit status and the captured output. -/
theorem runIgnoring_classifies_by_descriptor_table (ignored : List ExitErrorInfo)
    (code : Int) (output : String) (hcode : code ≠ 0) :
    ((∃ info ∈ ignored, info.exitCode = code ∧
        stringContains (trimNewlineSuffix output) info.stdErr = true) →
      ignoreErrorsAndRunIPTablesCommand ignored (.exitErr code output) = (code, none))
    ∧ ((∀ info ∈ ignored, ¬(info.exitCode = code ∧
        stringContains (trimNewlineSuffix output) info.stdErr = true)) →
      ignoreErrorsAndRunIPTablesCommand ignored (.exitErr code output)
        = (code, some (code, trimNewlineSuffix output))) := by
  constructor
  · intro hmatch
    have hfind : (ignored.find? (fun info =>
        info.exitCode == code && stringContains (trimNewlineSuffix output) info.stdErr)).isSome := by
      rw [List.find?_isSome]
      obtain ⟨info, hmem, hinfo⟩ := hmatch
      exact ⟨info, hmem, by simp [hinfo.1, hinfo.2]⟩
    obtain ⟨info, hinfo⟩ := Option.isSome_iff_exists.mp hfind
    simp only [ignoreErrorsAndRunIPTablesCommand, hinfo]
  · intro hnone
    have hfind : ignored.find? (fun info =>
        info.exitCode == code && stringContains (trimNewlineSuffix output) info.stdErr) = none := by
      rw [List.find?_eq_none]
      intro info hmem
      have := hnone info hmem
      simp only [Bool.and_eq_true, beq_iff_eq]
      intro hcontra
      exact this ⟨hcontra.1, hcontra.2⟩
    simp only [ignoreErrorsAndRunIPTablesCommand, hfind]

/-- Concrete run of Claim C8: exit code 1 with the "No chain/target/match by
that name" stderr matches the first descriptor of
`removeDeprecatedJumpIgnoredErrors` and is classified as success. -/
theorem runIgnoring_classifies_by_descriptor_table_witness :
    ignoreErrorsAndRunIPTablesCommand removeDeprecatedJumpIgnoredErrors
      (.exitErr 1 "iptables: No chain/target/match by that name.\n") = (1, none) :=
  (runIgnoring_classifies_by_descriptor_table removeDeprecatedJumpIgnoredErrors
    1 "iptables: No chain/target/match by that name.\n" (by decide)).1
    (by decide)

/-- Claim C10: if executing the underlying iptables command yields an error
that is not an exit-status error (e.g. the binary cannot be started), the
executor returns exit code 0 and no error — the failure is reported to the
caller as success — in both the plain and the ignore-table variants. -/
theorem nonExitError_reported_as_success (ignored : List ExitErrorInfo)
    (output : String) :
    ignoreErrorsAndRunIPTablesCommand ignored (.otherErr output) = (0, none)
    ∧ runIPTablesCommand (.otherErr output) = (0, none) :=
  ⟨rfl, rfl⟩

/-! Section: The iptables version detector (C7). -/

/-- The two backend command forms (`util.IptablesNft` / `util.IptablesLegacy`). -/
inductive IptablesMode where
  | nft
  | legacy
deriving DecidableEq

/-- The two marker-chain probes issued by `hintOrCanaryChainExist`. -/
inductive ProbeTarget where
  | hintProbe
  | canaryProbe
deriving DecidableEq

/-- Outcomes of the four possible list commands run by
`detectIptablesVersion` (hint and canary chain listings under each backend). -/
structure DetectEnv where
  nftHintRes : ExecResult
  nftCanaryRes : ExecResult
  legacyHintRes : ExecResult
  legacyCanaryRes : ExecResult

/-- A marker chain is listable when `runIPTablesCommand` reports no error. -/
def chainListable (res : ExecResult) : Bool :=
  (runIPTablesCommand res).2.isNone

/-- Source `errDetectingIptablesVersion`. -/
def errDetectingIptablesVersion : String :=
  "unable to locate which iptables version kube proxy is using"

/-- Source `PolicyManager.hintOrCanaryChainExist`: lists the hint chain; on
success returns `true`; otherwise lists the canary chain and returns whether
that succeeded.  Also records which probes were issued. -/
def hintOrCanaryChainExist (hintRes canaryRes : ExecResult) :
    Bool × List ProbeTarget :=
  if chainListable hintRes then (true, [.hintProbe])
  else if chainListable canaryRes then (true, [.hintProbe, .canaryProbe])
  else (false, [.hintProbe, .canaryProbe])

/-- Source `PolicyManager.detectIptablesVersion`: probes nft first, then
legacy, returning the selected backend mode (or the detection error) plus
the ordered probe trace. -/
def detectIptablesVersion (env : DetectEnv) :
    Except String IptablesMode × List (IptablesMode × ProbeTarget) :=
  let nftProbe := hintOrCanaryChainExist env.nftHintRes env.nftCanaryRes
  let nftTrace := nftProbe.2.map (fun p => (IptablesMode.nft, p))
  if nftProbe.1 then (.ok .nft, nftTrace)
  else
    let legacyProbe := hintOrCanaryChainExist env.legacyHintRes env.legacyCanaryRes
    let legacyTrace := legacyProbe.2.map (fun p => (IptablesMode.legacy, p))
    if legacyProbe.1 then (.ok .legacy, nftTrace ++ legacyTrace)
    else (.error errDetectingIptablesVersion, nftTrace ++ legacyTrace)

/-- Claim C7: the detector probes the nft backend first (the trace starts
with the nft hint probe, and legacy probes occur only when neither marker
chain is listable under nft); the first backend under which either marker
chain is listable is selected; when no probe succeeds under either backend
the detection error is returned and no backend is selected. -/
theorem detectIptablesVersion_probe_order_and_selection (env : DetectEnv) :
    ((detectIptablesVersion env).1 = .ok .nft ↔
        (chainListable env.nftHintRes || chainListable env.nftCanaryRes) = true)
    ∧ ((detectIptablesVersion env).1 = .ok .legacy ↔
        ((chainListable env.nftHintRes || chainListable env.nftCanaryRes) = false
          ∧ (chainListable env.legacyHintRes || chainListable env.legacyCanaryRes) = true))
    ∧ ((detectIptablesVersion env).1 = .error errDetectingIptablesVersion ↔
        ((chainListable env.nftHintRes || chainListable env.nftCanaryRes) = false
          ∧ (chainListable env.legacyHintRes || chainListable env.legacyCanaryRes) = false))
    ∧ (detectIptablesVersion env).2.head? = some (.nft, .hintProbe)
    ∧ (∀ p : ProbeTarget, (IptablesMode.legacy, p) ∈ (detectIptablesVersion env).2 →
        (chainListable env.nftHintRes || chainListable env.nftCanaryRes) = false) := by
  cases h1 : chainListable env.nftHintRes <;>
    cases h2 : chainListable env.nftCanaryRes <;>
      cases h3 : chainListable env.legacyHintRes <;>
        cases h4 : chainListable env.legacyCanaryRes <;>
          simp [detectIptablesVersion, hintOrCanaryChainExist, h1, h2, h3, h4]

/-- Concrete run of Claim C7: when all four probes fail with exit status 1,
the detector reports the detection error, and the trace shows legacy was
probed only after nft failed. -/
theorem detectIptablesVersion_probe_order_and_selection_witness :
    (detectIptablesVersion ⟨.exitErr 1 "fail", .exitErr 1 "fail",
        .exitErr 1 "fail", .exitErr 1 "fail"⟩).1 = .error errDetectingIptablesVersion :=
  (detectIptablesVersion_probe_order_and_selection
    ⟨.exitErr 1 "fail", .exitErr 1 "fail", .exitErr 1 "fail", .exitErr 1 "fail"⟩).2.2.1.mpr
    (by constructor <;> decide)

/-! Section: The jump-rule positioner (C4, C5, C6). -/

/-- The `PlaceAzureChainFirst` configuration: placement option 1 (first rule
of FORWARD) or option 2 (immediately after the jump to KUBE-SERVICES). -/
inductive Placement where
  | first
  | afterKubeServices
deriving DecidableEq

/-- Source `jumpToAzureChainArgs`. -/
def jumpToAzureChainArgs : List String :=
  [ IptablesJumpFlag, IptablesAzureChain, IptablesModuleFlag,
    IptablesCtstateModuleFlag, IptablesCtstateFlag, IptablesNewState ]

/-- Source `jumpFromForwardToAzureChainArgs`. -/
def jumpFromForwardToAzureChainArgs : List String :=
  IptablesForwardChain :: jumpToAzureChainArgs

/-- A mutating iptables command issued by the positioner. -/
inductive JumpCmd where
  | deleteCmd (args : List String)
  | insertCmd (args : List String)
deriving DecidableEq

/-- Environment for one `positionAzureChainJumpRule` run: the two
`chainLineNumber` lookups against the FORWARD listing (`.ok 0` means the
chain's jump is absent) and the outcomes of the delete and insert commands. -/
structure JumpRuleEnv where
  azureLookup : Except String Nat
  kubeLookup : Except String Nat
  deleteRes : ExecResult
  insertRes : ExecResult

/-- The insert argument form of the source: target position 1 uses the plain
rule spec (index 1 is implied), any other target uses an explicit numeric
index (`strconv.Itoa targetIndex`). -/
def insertArgsFor (targetIndex : Nat) : List String :=
  if targetIndex = 1 then jumpFromForwardToAzureChainArgs
  else IptablesForwardChain :: toString targetIndex :: jumpToAzureChainArgs

/-- The target index computed by the source: 1, unless placement is
after-KUBE-SERVICES, in which case the KUBE-SERVICES jump line is looked up
(propagating its error) and a non-zero line `k` dictates target `k + 1`. -/
def dictatedTarget (placement : Placement) (kubeLookup : Except String Nat) :
    Except String Nat :=
  match placement with
  | .first => .ok 1
  | .afterKubeServices =>
    match kubeLookup with
    | .error e => .error e
    | .ok kubeChainLineNum =>
        .ok (if kubeChainLineNum ≠ 0 then kubeChainLineNum + 1 else 1)

/-- Source `PolicyManager.positionAzureChainJumpRule`, returning the list of
mutating commands issued (in order) and the optional returned error. -/
def positionAzureChainJumpRule (placement : Placement) (env : JumpRuleEnv) :
    List JumpCmd × Option String :=
  match env.azureLookup with
  | .error _ =>
      ([], some "failed to get index of jump from FORWARD chain to AZURE-NPM chain")
  | .ok azureChainLineNum =>
    if placement = .first ∧ azureChainLineNum = 1 then ([], none)
    else
      match dictatedTarget placement env.kubeLookup with
      | .error _ =>
          ([], some "failed to get index of jump from FORWARD chain to KUBE-SERVICES chain")
      | .ok targetIndex =>
        if azureChainLineNum = targetIndex then ([], none)
        else if azureChainLineNum ≠ 0 then
          if (ignoreErrorsAndRunIPTablesCommand [] env.deleteRes).2.isSome then
            ([.deleteCmd jumpFromForwardToAzureChainArgs],
             some "failed to delete jump from FORWARD chain to AZURE-NPM chain")
          else
            let adjustedTarget :=
              if azureChainLineNum < targetIndex then targetIndex - 1 else targetIndex
            ([.deleteCmd jumpFromForwardToAzureChainArgs,
              .insertCmd (insertArgsFor adjustedTarget)],
             if (ignoreErrorsAndRunIPTablesCommand [] env.insertRes).2.isSome then
               some "failed to insert jump from FORWARD chain to AZURE-NPM chain"
             else none)
        else
          ([.insertCmd (insertArgsFor targetIndex)],
           if (ignoreErrorsAndRunIPTablesCommand [] env.insertRes).2.isSome then
             some "failed to insert jump from FORWARD chain to AZURE-NPM chain"
           else none)

/-- Claim C4: whenever the entrypoint jump's current line number in FORWARD
already equals the target position dictated by the configured placement
policy, the positioner returns success and issues no delete or insert
command. -/
theorem positionJump_noop_when_already_in_position (placement : Placement)
    (env : JumpRuleEnv) (n : Nat)
    (ha : env.azureLookup = .ok n)
    (ht : dictatedTarget placement env.kubeLookup = .ok n) :
    positionAzureChainJumpRule placement env = ([], none) := by
  unfold positionAzureChainJumpRule
  rw [ha]
  by_cases hfirst : placement = .first ∧ n = 1
  · simp [hfirst]
  · simp only [hfirst, if_false]
    rw [ht]
    simp

/-- Concrete run of Claim C4: jump present at line 1 under the place-first
policy issues zero commands (Scenario C); the KUBE-SERVICES lookup is not
even consulted (here it errors). -/
theorem positionJump_noop_when_already_in_position_witness :
    positionAzureChainJumpRule .first
      ⟨.ok 1, .error "lookup failed", .success "", .success ""⟩ = ([], none) :=
  positionJump_noop_when_already_in_position .first
    ⟨.ok 1, .error "lookup failed", .success "", .success ""⟩ 1 rfl rfl

/-- Claim C5 counterexample: place-after-KUBE-SERVICES, KUBE-SERVICES jump
at line 2, entrypoint jump at line 1, delete and insert succeed.  The
KUBE-SERVICES position (2) is NOT above (not a smaller line number than) the
deleted jump's old position (1), so the claim predicts no decrement and an
insert at the computed target 3; the code decrements and inserts at 2. -/
theorem positionJump_decrement_counterexample :
    (positionAzureChainJumpRule .afterKubeServices
        ⟨.ok 1, .ok 2, .success "", .success ""⟩).1
      = [.deleteCmd jumpFromForwardToAzureChainArgs, .insertCmd (insertArgsFor 2)]
    ∧ ¬ (2 : Nat) < 1
    ∧ insertArgsFor 2 ≠ insertArgsFor 3 := by
  refine ⟨?_, by decide, by decide⟩
  decide

/-- Claim C5 (amended): when the existing entrypoint jump is deleted before
re-insertion under the place-after-KUBE-SERVICES policy with the
KUBE-SERVICES jump present at line `kb`, the computed target `kb + 1` is
decremented by one exactly when the KUBE-SERVICES jump's position was NOT
above the deleted entrypoint jump's old position `a` (i.e. `¬ kb < a`, the
deleted jump was above the KUBE-SERVICES jump, whose line shifts down by one
when the jump above it is deleted). -/
theorem positionJump_decrement_condition (a kb : Nat) (dRes iRes : ExecResult)
    (hkb : kb ≠ 0) (ha0 : a ≠ 0) (hne : a ≠ kb + 1)
    (hdel : (ignoreErrorsAndRunIPTablesCommand [] dRes).2 = none) :
    (positionAzureChainJumpRule .afterKubeServices ⟨.ok a, .ok kb, dRes, iRes⟩).1
      = [.deleteCmd jumpFromForwardToAzureChainArgs,
         .insertCmd (insertArgsFor (if kb < a then kb + 1 else kb))] := by
  have harith : (if a < kb + 1 then kb else kb + 1)
      = (if kb < a then kb + 1 else kb) := by
    rcases Nat.lt_or_ge a (kb + 1) with hlt | hge
    · have h2 : ¬ kb < a := by omega
      simp [hlt, h2]
    · have h1 : ¬ a < kb + 1 := by omega
      have h2 : kb < a := by omega
      simp [h1, h2]
  unfold positionAzureChainJumpRule dictatedTarget
  simp only [hkb, if_true, ne_eq, ite_not]
  simp [hne, ha0, hdel, harith]

/-- Concrete run of the amended Claim C5: KUBE-SERVICES at line 2, old
entrypoint jump at line 1; after deleting the jump the target 3 is
decremented, so the re-insert goes to position 2. -/
theorem positionJump_decrement_condition_witness :
    (positionAzureChainJumpRule .afterKubeServices
        ⟨.ok 1, .ok 2, .success "", .success ""⟩).1
      = [.deleteCmd jumpFromForwardToAzureChainArgs, .insertCmd (insertArgsFor 2)] := by
  have h := positionJump_decrement_condition 1 2 (.success "") (.success "")
    (by decide) (by decide) (by decide) (by decide)
  simpa using h

/-- Claim C6: under the place-after-KUBE-SERVICES policy, when the
KUBE-SERVICES jump is at line `lnum > 0` and the entrypoint jump is absent
(line number 0), the positioner issues exactly one insert, at position
`lnum + 1`, using the explicit numeric insert form; target position 1 would
use the plain insert form without an index, any other target the explicit
numeric form. -/
theorem positionJump_insert_after_kube (lnum : Nat) (env : JumpRuleEnv)
    (hl : 0 < lnum)
    (ha : env.azureLookup = .ok 0)
    (hk : env.kubeLookup = .ok lnum) :
    (positionAzureChainJumpRule .afterKubeServices env).1
        = [.insertCmd (IptablesForwardChain :: toString (lnum + 1) :: jumpToAzureChainArgs)]
    ∧ insertArgsFor 1 = jumpFromForwardToAzureChainArgs
    ∧ (∀ t : Nat, t ≠ 1 →
        insertArgsFor t = IptablesForwardChain :: toString t :: jumpToAzureChainArgs) := by
  refine ⟨?_, by simp [insertArgsFor], fun t ht => by simp [insertArgsFor, ht]⟩
  have hl0 : lnum ≠ 0 := by omega
  have htarget : (0 : Nat) ≠ lnum + 1 := by omega
  have hform : lnum + 1 ≠ 1 := by omega
  unfold positionAzureChainJumpRule dictatedTarget
  rw [ha, hk]
  simp [hl0, htarget, insertArgsFor, hform]

/-- Concrete run of Claim C6 (Scenario B): KUBE-SERVICES jump at line 2, no
entrypoint jump; the positioner inserts at line 3 with the explicit numeric
form. -/
theorem positionJump_insert_after_kube_witness :
    (positionAzureChainJumpRule .afterKubeServices
        ⟨.ok 0, .ok 2, .success "", .success ""⟩).1
      = [.insertCmd (IptablesForwardChain :: toString (2 + 1) :: jumpToAzureChainArgs)] :=
  (positionJump_insert_after_kube 2
    ⟨.ok 0, .ok 2, .success "", .success ""⟩ (by decide) rfl rfl).1

/-! Section: The stale-chain cleanup loop (C3). -/

/-- Error-message accumulation of the source's `aggregateError` in
`cleanupChains`. -/
def appendChainError (agg : Option String) (chain : String) : String :=
  match agg with
  | none => "failed to clean up chain " ++ chain
  | some _ => "failed to clean up chain " ++ chain ++ " and had previous error"

/-- Loop body of source `PolicyManager.cleanupChains`, indexed by the
position `k` of the current chain.  `destroyRes j` is the outcome of the
destroy command for the chain at index `j`; `signalAt = some j` means the
`releaseLockSignal` channel delivers (the non-blocking `select` observes the
forced-takeover signal) at the boundary before the chain at index `j` is
deleted.  Accumulates the stale set, the list of chains for which a destroy
command was issued, and the aggregate error. -/
def cleanupChainsAux (destroyRes : Nat → ExecResult) (signalAt : Option Nat)
    (s : StaleChains) (issued : List String) (agg : Option String) (k : Nat) :
    List String → StaleChains × List String × Option String
  | [] => (s, issued, agg)
  | chain :: rest =>
    if signalAt = some k then
      ((chain :: rest).foldl StaleChains.add s, issued, agg)
    else
      if (runIPTablesCommand (destroyRes k)).2.isSome
          && (runIPTablesCommand (destroyRes k)).1 != doesNotExistErrorCode then
        cleanupChainsAux destroyRes signalAt (s.add chain) (issued ++ [chain])
          (some (appendChainError agg chain)) (k + 1) rest
      else
        cleanupChainsAux destroyRes signalAt s (issued ++ [chain]) agg (k + 1) rest

/-- Source `PolicyManager.cleanupChains`: runs the loop from index 0 on the
receiver's stale set and wraps a non-nil aggregate error. -/
def cleanupChains (destroyRes : Nat → ExecResult) (signalAt : Option Nat)
    (s : StaleChains) (chains : List String) :
    StaleChains × List String × Option String :=
  let r := cleanupChainsAux destroyRes signalAt s [] none 0 chains
  (r.1, r.2.1, r.2.2.map (fun _ => "failed to clean up some chains"))

theorem cleanupChainsAux_issued (destroyRes : Nat → ExecResult) (k : Nat) :
    ∀ (chains : List String) (s : StaleChains) (issued : List String)
      (agg : Option String) (i : Nat), i ≤ k →
      (cleanupChainsAux destroyRes (some k) s issued agg i chains).2.1
        = issued ++ chains.take (k - i) := by
  intro chains
  induction chains with
  | nil => intro s issued agg i _; simp [cleanupChainsAux]
  | cons chain rest ih =>
      intro s issued agg i hik
      by_cases hsig : i = k
      · subst hsig
        simp [cleanupChainsAux]
      · have hik' : i + 1 ≤ k := by omega
        have htake : (chain :: rest).take (k - i) = chain :: rest.take (k - (i + 1)) := by
          have : k - i = (k - (i + 1)) + 1 := by omega
          rw [this]
          rfl
        have hne : ¬ (some k = some i) := by
          intro h
          exact hsig (Option.some.inj h).symm
        unfold cleanupChainsAux
        have hcond : ¬ ((some k : Option Nat) = some i) := hne
        rw [if_neg (by simpa [eq_comm] using hsig)]
        split
        · rw [ih _ _ _ _ hik', htake]
          simp
        · rw [ih _ _ _ _ hik', htake]
          simp

theorem StaleChains.mem_add_self {s : StaleChains} {c : String}
    (h : isBaseChain c = false) : c ∈ (s.add c).chainsToCleanup := by
  unfold StaleChains.add
  rw [if_pos (by simp [h])]
  split
  · next hcont => exact List.elem_iff.mp hcont
  · exact List.mem_cons_self c _

theorem StaleChains.mem_add_of_mem {s : StaleChains} {c : String} (c' : String)
    (h : c ∈ s.chainsToCleanup) : c ∈ (s.add c').chainsToCleanup := by
  unfold StaleChains.add
  split
  · split
    · exact h
    · exact List.mem_cons_of_mem c' h
  · exact h

theorem StaleChains.mem_foldl_add_of_mem {c : String} :
    ∀ (l : List String) (s : StaleChains), c ∈ s.chainsToCleanup →
      c ∈ (l.foldl StaleChains.add s).chainsToCleanup := by
  intro l
  induction l with
  | nil => intro s h; exact h
  | cons x xs ih =>
      intro s h
      exact ih (s.add x) (StaleChains.mem_add_of_mem x h)

theorem StaleChains.mem_foldl_add {c : String} (hc : isBaseChain c = false) :
    ∀ (l : List String) (s : StaleChains), c ∈ l →
      c ∈ (l.foldl StaleChains.add s).chainsToCleanup := by
  intro l
  induction l with
  | nil => intro s h; cases h
  | cons x xs ih =>
      intro s h
      rcases List.mem_cons.mp h with h | h
      · subst h
        exact StaleChains.mem_foldl_add_of_mem xs (s.add c)
          (StaleChains.mem_add_self hc)
      · exact ih (s.add x) h

theorem cleanupChainsAux_mem_of_drop (destroyRes : Nat → ExecResult) (k : Nat)
    {c : String} (hc : isBaseChain c = false) :
    ∀ (chains : List String) (s : StaleChains) (issued : List String)
      (agg : Option String) (i : Nat), i ≤ k → c ∈ chains.drop (k - i) →
      c ∈ (cleanupChainsAux destroyRes (some k) s issued agg i chains).1.chainsToCleanup := by
  intro chains
  induction chains with
  | nil => intro s issued agg i _ hmem; simp at hmem
  | cons chain rest ih =>
      intro s issued agg i hik hmem
      by_cases hsig : i = k
      · subst hsig
        simp only [Nat.sub_self, List.drop_zero] at hmem
        unfold cleanupChainsAux
        rw [if_pos rfl]
        exact StaleChains.mem_foldl_add hc _ s hmem
      · have hik' : i + 1 ≤ k := by omega
        have hdrop : (chain :: rest).drop (k - i) = rest.drop (k - (i + 1)) := by
          have : k - i = (k - (i + 1)) + 1 := by omega
          rw [this]
          rfl
        rw [hdrop] at hmem
        unfold cleanupChainsAux
        rw [if_neg (by simpa [eq_comm] using hsig)]
        split
        · exact ih (s.add chain) _ _ _ hik' hmem
        · exact ih s _ _ _ hik' hmem

/-- Claim C3: for every list of `N` chains passed to the stale-chain cleanup
loop, if the forced-takeover (release-lock) signal is observed at the
boundary before the `k`-th chain's deletion, then every chain at index `k`
through `N - 1` is added back to the stale set (base chains excluded by the
`add` boundary) and no destroy command is issued for those chains: the
destroy commands issued are exactly those for the first `k` chains. -/
theorem cleanupChains_signal_requeues_remaining (destroyRes : Nat → ExecResult)
    (chains : List String) (k : Nat) (s : StaleChains) :
    (∀ j, k ≤ j → (hj : j < chains.length) → isBaseChain chains[j] = false →
        chains[j] ∈ (cleanupChains destroyRes (some k) s chains).1.chainsToCleanup)
    ∧ (cleanupChains destroyRes (some k) s chains).2.1 = chains.take k := by
  constructor
  · intro j hkj hj hbase
    have hmem : chains[j] ∈ chains.drop (k - 0) := by
      simp only [Nat.sub_zero]
      have hlt : j - k < (chains.drop k).length := by
        rw [List.length_drop]
        omega
      have : (chains.drop k)[j - k] = chains[j] := by
        rw [List.getElem_drop]
        congr 1
        omega
      rw [← this]
      exact List.getElem_mem hlt
    exact cleanupChainsAux_mem_of_drop destroyRes k hbase chains s [] none 0
      (Nat.zero_le k) hmem
  · have h := cleanupChainsAux_issued destroyRes k chains s [] none 0 (Nat.zero_le k)
    simpa [cleanupChains] using h

/-- Concrete run of Claim C3: three chains, signal observed before index 1;
only the first chain's destroy command is issued, and the two unprocessed
chains are re-queued in the stale set. -/
theorem cleanupChains_signal_requeues_remaining_witness :
    "OLD-CHAIN-B" ∈ (cleanupChains (fun _ => .success "") (some 1) ⟨[]⟩
        ["OLD-CHAIN-A", "OLD-CHAIN-B", "OLD-CHAIN-C"]).1.chainsToCleanup
    ∧ (cleanupChains (fun _ => .success "") (some 1) ⟨[]⟩
        ["OLD-CHAIN-A", "OLD-CHAIN-B", "OLD-CHAIN-C"]).2.1 = ["OLD-CHAIN-A"] := by
  have h := cleanupChains_signal_requeues_remaining (fun _ => .success "")
    ["OLD-CHAIN-A", "OLD-CHAIN-B", "OLD-CHAIN-C"] 1 ⟨[]⟩
  exact ⟨h.1 1 (by decide) (by decide) (by decide), h.2⟩

/-! Section: The bootup restore builder (C2).

The `ioutil.FileCreator` is modelled as the ordered list of its lines, one
line per `AddLine` call, each line being the list of items passed to
`AddLine` (the real creator joins them with spaces). -/

/-- Modelled from the spec: `PolicyManager.newCreatorWithChains` (outside
the provided sources) seeds the restore payload with one chain declaration
line `:CHAINNAME - -` per chain name, the payload format given for the
batch restore builder. -/
def newCreatorWithChains (chainNames : List String) : List (List String) :=
  chainNames.map (fun chain => [":" ++ chain ++ " - -"])

/-- Source `onMarkSpecs`. -/
def onMarkSpecs (mark : String) : List String :=
  [IptablesModuleFlag, IptablesMarkVerb, IptablesMarkFlag, mark]

/-- Modelled from the spec: `setMarkSpecs` (outside the provided sources) is
the rule fragment that sets the given packet mark. -/
def setMarkSpecs (mark : String) : List String :=
  [IptablesJumpFlag, "MARK", "--set-mark", mark]

/-- Modelled from the spec: `commentSpecs` (outside the provided sources) is
the rule fragment attaching a human-readable comment. -/
def commentSpecs (comment : String) : List String :=
  [IptablesModuleFlag, "comment", "--comment", comment]

/-- Source: the `-A AZURE-NPM-INGRESS -j DROP` on-ingress-drop-mark line. -/
def ingressDropSpecs : List String :=
  [IptablesAppendFlag, IptablesAzureIngressChain, IptablesJumpFlag, IptablesDrop]
    ++ onMarkSpecs IptablesAzureIngressDropMarkHex
    ++ commentSpecs ("DROP-ON-INGRESS-DROP-MARK-" ++ IptablesAzureIngressDropMarkHex)

/-- Source: the `-A AZURE-NPM-INGRESS-ALLOW-MARK` set-ingress-allow-mark line. -/
def markIngressAllowSpecs : List String :=
  [IptablesAppendFlag, IptablesAzureIngressAllowMarkChain]
    ++ setMarkSpecs IptablesAzureIngressAllowMarkHex
    ++ commentSpecs ("SET-INGRESS-ALLOW-MARK-" ++ IptablesAzureIngressAllowMarkHex)

/-- Source: the jump from the ingress-allow-mark chain to the egress chain. -/
def ingressAllowToEgressSpecs : List String :=
  [IptablesAppendFlag, IptablesAzureIngressAllowMarkChain, IptablesJumpFlag,
   IptablesAzureEgressChain]

/-- Source: the `-A AZURE-NPM-EGRESS -j DROP` on-egress-drop-mark line. -/
def egressDropSpecs : List String :=
  [IptablesAppendFlag, IptablesAzureEgressChain, IptablesJumpFlag, IptablesDrop]
    ++ onMarkSpecs IptablesAzureEgressDropMarkHex
    ++ commentSpecs ("DROP-ON-EGRESS-DROP-MARK-" ++ IptablesAzureEgressDropMarkHex)

/-- Source: the accept-on-ingress-allow-mark jump from the egress chain to
the accept chain. -/
def jumpOnIngressMatchSpecs : List String :=
  [IptablesAppendFlag, IptablesAzureEgressChain, IptablesJumpFlag,
   IptablesAzureAcceptChain]
    ++ onMarkSpecs IptablesAzureIngressAllowMarkHex
    ++ commentSpecs ("ACCEPT-ON-INGRESS-ALLOW-MARK-" ++ IptablesAzureIngressAllowMarkHex)

/-- Source: the `-A AZURE-NPM-ACCEPT -j ACCEPT` line. -/
def acceptSpecs : List String :=
  [IptablesAppendFlag, IptablesAzureAcceptChain, IptablesJumpFlag, IptablesAccept]

/-- Source `PolicyManager.creatorForBootup`: chains missing from
`currentChains` among the base chains are declared; every current chain gets
a flush line (and is marked stale — base chains are excluded by `add`); the
canonical base-chain rules and the commit marker follow.  Returns the
payload lines and the resulting stale set (the receiver's stale set is
emptied first). -/
def creatorForBootup (currentChains : List String) :
    List (List String) × StaleChains :=
  let chainsToCreate :=
    iptablesAzureChains.filter (fun chain => ¬ currentChains.contains chain)
  let creatorLines := newCreatorWithChains chainsToCreate
  let flushStep := currentChains.foldl
    (fun (p : List (List String) × StaleChains) chain =>
      (p.1 ++ [["-F " ++ chain]], p.2.add chain))
    (creatorLines, StaleChains.mk [])
  (flushStep.1 ++
    [ ingressDropSpecs, markIngressAllowSpecs, ingressAllowToEgressSpecs,
      egressDropSpecs, jumpOnIngressMatchSpecs, acceptSpecs,
      [IptablesRestoreCommit] ],
   flushStep.2)

/-- The four base chains that receive canonical rules during bootup. -/
def bootupRuleChains : List String :=
  [ IptablesAzureIngressChain, IptablesAzureIngressAllowMarkChain,
    IptablesAzureEgressChain, IptablesAzureAcceptChain ]

theorem creatorForBootup_foldl_lines (l : List String) :
    ∀ (init : List (List String)) (s : StaleChains),
      (l.foldl (fun (p : List (List String) × StaleChains) chain =>
          (p.1 ++ [["-F " ++ chain]], p.2.add chain)) (init, s)).1
        = init ++ l.map (fun chain => ["-F " ++ chain]) := by
  induction l with
  | nil => intro init s; simp
  | cons chain rest ih =>
      intro init s
      rw [List.foldl_cons, ih]
      simp

/-- Claim C2: for every set of currently-present chains, the bootup restore
payload contains no append-rule line whose target chain is the root dispatch
chain `AZURE-NPM`: every append line targets one of the ingress,
ingress-allow-mark, egress and accept base chains (none of which is
`AZURE-NPM`), any missing base chain gets a declaration line, every
currently-present chain gets a flush line, and the payload ends with the
commit marker — leaving `AZURE-NPM` empty of rules. -/
theorem creatorForBootup_leaves_azure_npm_empty (currentChains : List String) :
    (∀ line ∈ (creatorForBootup currentChains).1,
        line.head? = some IptablesAppendFlag →
          ∃ c ∈ bootupRuleChains, line.tail.head? = some c)
    ∧ IptablesAzureChain ∉ bootupRuleChains
    ∧ (∀ chain ∈ iptablesAzureChains, chain ∉ currentChains →
        [":" ++ chain ++ " - -"] ∈ (creatorForBootup currentChains).1)
    ∧ (∀ chain ∈ currentChains, ["-F " ++ chain] ∈ (creatorForBootup currentChains).1)
    ∧ (creatorForBootup currentChains).1.getLast? = some [IptablesRestoreCommit] := by
  have hlines : (creatorForBootup currentChains).1
      = newCreatorWithChains
          (iptablesAzureChains.filter (fun chain => ¬ currentChains.contains chain))
        ++ currentChains.map (fun chain => ["-F " ++ chain])
        ++ [ ingressDropSpecs, markIngressAllowSpecs, ingressAllowToEgressSpecs,
             egressDropSpecs, jumpOnIngressMatchSpecs, acceptSpecs,
             [IptablesRestoreCommit] ] := by
    unfold creatorForBootup
    simp only [creatorForBootup_foldl_lines]
  refine ⟨?_, by decide, ?_, ?_, ?_⟩
  · intro line hline hhead
    rw [hlines] at hline
    rcases List.mem_append.mp hline with hline | htail
    · rcases List.mem_append.mp hline with hdecl | hflush
      · exfalso
        obtain ⟨chain, _, hchain⟩ := List.mem_map.mp hdecl
        rw [← hchain] at hhead
        simp only [List.head?_cons, Option.some.injEq] at hhead
        have hlen := congrArg String.length hhead
        rw [String.length_append, String.length_append] at hlen
        have h1 : (":").length = 1 := by decide
        have h2 : (" - -").length = 4 := by decide
        have h3 : IptablesAppendFlag.length = 2 := by decide
        rw [h1, h2, h3] at hlen
        omega
      · exfalso
        obtain ⟨chain, _, hchain⟩ := List.mem_map.mp hflush
        rw [← hchain] at hhead
        simp only [List.head?_cons, Option.some.injEq] at hhead
        have hlen := congrArg String.length hhead
        rw [String.length_append] at hlen
        have h1 : ("-F ").length = 3 := by decide
        have h3 : IptablesAppendFlag.length = 2 := by decide
        rw [h1, h3] at hlen
        omega
    · fin_cases htail
      · exact ⟨IptablesAzureIngressChain, by decide, by decide⟩
      · exact ⟨IptablesAzureIngressAllowMarkChain, by decide, by decide⟩
      · exact ⟨IptablesAzureIngressAllowMarkChain, by decide, by decide⟩
      · exact ⟨IptablesAzureEgressChain, by decide, by decide⟩
      · exact ⟨IptablesAzureEgressChain, by decide, by decide⟩
      · exact ⟨IptablesAzureAcceptChain, by decide, by decide⟩
      · exact absurd hhead (by decide)
  · intro chain hbase hcur
    rw [hlines]
    refine List.mem_append_left _ (List.mem_append_left _ ?_)
    unfold newCreatorWithChains
    refine List.mem_map.mpr ⟨chain, ?_, rfl⟩
    refine List.mem_filter.mpr ⟨hbase, ?_⟩
    have hcont : currentChains.contains chain = false := by
      rw [← Bool.not_eq_true]
      intro h
      exact hcur (List.elem_iff.mp h)
    simp [hcont]
    exact hcur
  · intro chain hcur
    rw [hlines]
    exact List.mem_append_left _
      (List.mem_append_right _ (List.mem_map.mpr ⟨chain, hcur, rfl⟩))
  · rw [hlines]
    simp [List.getLast?_append]

/-- Concrete run of Claim C2 (Scenario A flavor): with current chains
`AZURE-NPM` and an old policy chain, the payload declares the four missing
base chains, flushes both current chains, and ends with the commit marker. -/
theorem creatorForBootup_leaves_azure_npm_empty_witness :
    [":" ++ IptablesAzureIngressChain ++ " - -"]
        ∈ (creatorForBootup [IptablesAzureChain, "OLD-POLICY-CHAIN"]).1
    ∧ ["-F " ++ "OLD-POLICY-CHAIN"]
        ∈ (creatorForBootup [IptablesAzureChain, "OLD-POLICY-CHAIN"]).1
    ∧ (creatorForBootup [IptablesAzureChain, "OLD-POLICY-CHAIN"]).1.getLast?
        = some [IptablesRestoreCommit] := by
  have h := creatorForBootup_leaves_azure_npm_empty [IptablesAzureChain, "OLD-POLICY-CHAIN"]
  exact ⟨h.2.2.1 IptablesAzureIngressChain (by decide) (by decide),
    h.2.2.2.1 "OLD-POLICY-CHAIN" (by decide), h.2.2.2.2⟩

/-! Section: The other-backend cleanup pass (C9). -/

/-- Environment for one `cleanupOtherIptables` run: outcomes of the two jump
deletions, of the `AllCurrentAzureChains` enumeration, of the batched
flush-all restore, and of the per-chain flush and destroy commands. -/
structure OtherCleanupEnv where
  delDeprecatedRes : ExecResult
  delJumpRes : ExecResult
  currentChainsRes : Except String (List String)
  restoreOk : Bool
  flushAzureRes : ExecResult
  flushRes : String → ExecResult
  destroyRes : String → ExecResult

/-- The source's `deletedJumpRule` local: true when either jump deletion
(classified through `removeDeprecatedJumpIgnoredErrors`) returned exit code
0. -/
def deletedJumpRuleOf (env : OtherCleanupEnv) : Bool :=
  ((ignoreErrorsAndRunIPTablesCommand removeDeprecatedJumpIgnoredErrors env.delDeprecatedRes).1 == 0)
  || ((ignoreErrorsAndRunIPTablesCommand removeDeprecatedJumpIgnoredErrors env.delJumpRes).1 == 0)

/-- The source's `chains` slice: `AZURE-NPM` first if present, then the
remaining current chains. -/
def cleanupChainsOrder (currentChains : List String) : List String :=
  (if currentChains.contains IptablesAzureChain then [IptablesAzureChain] else [])
    ++ currentChains.filter (fun chain => ¬ chain == IptablesAzureChain)

/-- Source `PolicyManager.creatorForCleanup`: only flush lines (no chain
declarations) and the commit marker. -/
def creatorForCleanup (chains : List String) : List (List String) :=
  chains.map (fun chain => ["-F " ++ chain]) ++ [[IptablesRestoreCommit]]

/-- Error-message accumulation of the per-chain flush fallback loop
(`aggregateError` in step 3.2 of the source). -/
def appendFlushError (agg : Option String) (chain : String) : String :=
  match agg with
  | none => "failed to flush chain " ++ chain
  | some _ => "failed to flush chain " ++ chain ++ " and had previous error"

/-- The step 3.2 loop: flush every current chain except `AZURE-NPM`,
aggregating (for logging only) failures whose exit code is not the
does-not-exist code. -/
def benignFlushAggregate (flushRes : String → ExecResult)
    (currentChains : List String) (init : Option String) : Option String :=
  currentChains.foldl
    (fun agg chain =>
      if chain == IptablesAzureChain then agg
      else
        if (runIPTablesCommand (flushRes chain)).2.isSome
            && (runIPTablesCommand (flushRes chain)).1 != doesNotExistErrorCode then
          some (appendFlushError agg chain)
        else agg)
    init

/-- Error-message accumulation of the step 4 destroy loop. -/
def appendDestroyError (agg : Option String) (chain : String) : String :=
  match agg with
  | none => "failed to delete chain " ++ chain
  | some _ => "failed to delete chain " ++ chain ++ " and had previous error"

/-- The step 4 loop: destroy every chain, aggregating (for logging only)
failures whose exit code is not the does-not-exist code. -/
def benignDestroyAggregate (destroyRes : String → ExecResult)
    (chains : List String) : Option String :=
  chains.foldl
    (fun agg chain =>
      if (runIPTablesCommand (destroyRes chain)).2.isSome
          && (runIPTablesCommand (destroyRes chain)).1 != doesNotExistErrorCode then
        some (appendDestroyError agg chain)
      else agg)
    none

/-- Source error message of the enumeration-failure return. -/
def cleanupGetChainsErrMsg : String :=
  "[cleanup] failed to get current chains for bootup"

/-- Source error message of the fatal double-failure return (issue #3088). -/
def cleanupMustCrashErrMsg : String :=
  "[cleanup] must crash and retry. failed to delete jump rule and flush AZURE-NPM chain with error"

/-- Result of one `cleanupOtherIptables` run: the returned error, plus the
two benign aggregates that the source only logs. -/
structure OtherCleanupOutcome where
  err : Option String
  flushAgg : Option String
  destroyAgg : Option String
deriving DecidableEq

/-- Source `PolicyManager.cleanupOtherIptables` (the backend-mode toggling
at entry/exit only flips the global command dialect and is omitted).
Returns its error: non-nil only when the chain enumeration fails, or when
the batched flush failed, `AZURE-NPM` is present, its individual flush
failed, and no jump rule into it was deleted. -/
def cleanupOtherIptables (env : OtherCleanupEnv) : OtherCleanupOutcome :=
  let deletedJumpRule := deletedJumpRuleOf env
  match env.currentChainsRes with
  | .error _ => ⟨some cleanupGetChainsErrMsg, none, none⟩
  | .ok currentChains =>
    if currentChains.length == 0 then ⟨none, none, none⟩
    else
      let chains := cleanupChainsOrder currentChains
      if env.restoreOk then
        ⟨none, none, benignDestroyAggregate env.destroyRes chains⟩
      else if currentChains.contains IptablesAzureChain then
        if (runIPTablesCommand env.flushAzureRes).2.isSome && !deletedJumpRule then
          ⟨some cleanupMustCrashErrMsg, none, none⟩
        else
          ⟨none,
           benignFlushAggregate env.flushRes currentChains
             ((runIPTablesCommand env.flushAzureRes).2.map
               (fun _ => "failed to flush chain " ++ IptablesAzureChain)),
           benignDestroyAggregate env.destroyRes chains⟩
      else
        ⟨none,
         benignFlushAggregate env.flushRes currentChains none,
         benignDestroyAggregate env.destroyRes chains⟩

/-- Claim C9 counterexample: when the enumeration of current chains fails,
`cleanupOtherIptables` returns a non-nil error even though the jump-rule
deletion succeeded (and the `AZURE-NPM` flush was never attempted, let alone
failed) — refuting "returns a non-nil error only when it both failed to
delete a jump rule and failed to flush the AZURE-NPM chain". -/
theorem cleanupOtherIptables_error_without_double_failure :
    (cleanupOtherIptables
        ⟨.success "", .success "", .error "exec failed", true, .success "",
         fun _ => .success "", fun _ => .success ""⟩).err ≠ none
    ∧ deletedJumpRuleOf
        ⟨.success "", .success "", .error "exec failed", true, .success "",
         fun _ => .success "", fun _ => .success ""⟩ = true
    ∧ (runIPTablesCommand (ExecResult.success "")).2 = none := by
  refine ⟨?_, rfl, rfl⟩
  intro h
  exact Option.noConfusion h

/-- Claim C9 (amended): `cleanupOtherIptables` returns a non-nil error
exactly when the enumeration of current chains fails, or when the current
chains are non-empty, the batched flush-restore failed, `AZURE-NPM` is among
the current chains, its individual flush failed, and neither jump-rule
deletion succeeded; every other failure (individual chain flush or destroy
failures) is only logged and yields a nil error. -/
theorem cleanupOtherIptables_error_iff (env : OtherCleanupEnv) :
    (cleanupOtherIptables env).err ≠ none ↔
      ((∃ e, env.currentChainsRes = .error e)
        ∨ (∃ currentChains, env.currentChainsRes = .ok currentChains
            ∧ currentChains ≠ []
            ∧ env.restoreOk = false
            ∧ currentChains.contains IptablesAzureChain = true
            ∧ (runIPTablesCommand env.flushAzureRes).2.isSome = true
            ∧ deletedJumpRuleOf env = false)) := by
  unfold cleanupOtherIptables
  cases hcc : env.currentChainsRes with
  | error e =>
      simp only [ne_eq]
      constructor
      · intro _
        exact Or.inl ⟨e, rfl⟩
      · intro _ h
        exact Option.noConfusion h
  | ok currentChains =>
      simp only [ne_eq]
      constructor
      · intro herr
        by_cases hlen : currentChains.length == 0
        · rw [if_pos hlen] at herr
          exact absurd rfl herr
        · rw [if_neg hlen] at herr
          by_cases hrestore : env.restoreOk
          · rw [if_pos hrestore] at herr
            exact absurd rfl herr
          · rw [if_neg hrestore] at herr
            by_cases hazure : currentChains.contains IptablesAzureChain
            · rw [if_pos hazure] at herr
              by_cases hfatal : ((runIPTablesCommand env.flushAzureRes).2.isSome
                  && !deletedJumpRuleOf env) = true
              · refine Or.inr ⟨currentChains, rfl, ?_, ?_, hazure, ?_, ?_⟩
                · intro hnil
                  subst hnil
                  exact hlen rfl
                · exact Bool.eq_false_iff.mpr hrestore
                · exact (Bool.and_eq_true _ _ ▸ hfatal).1
                · have := (Bool.and_eq_true _ _ ▸ hfatal).2
                  simpa using this
              · rw [if_neg hfatal] at herr
                exact absurd rfl herr
            · rw [if_neg hazure] at herr
              exact absurd rfl herr
      · intro hcases
        rcases hcases with ⟨e, he⟩ | ⟨ccs, hccs, hnil, hrestore, hazure, hflush, hjump⟩
        · exact Except.noConfusion he
        · have hccs' : currentChains = ccs := Except.ok.inj hccs
          subst hccs'
          have hlen : ¬ (currentChains.length == 0) = true := by
            simp only [beq_iff_eq, List.length_eq_zero]
            exact hnil
          rw [if_neg hlen, if_neg (by rw [hrestore]; exact Bool.false_ne_true),
            if_pos hazure, if_pos (by rw [hflush, hjump]; rfl)]
          intro h
          exact Option.noConfusion h

/-- Concrete run of the amended Claim C9: both jump deletions fail with an
unrecognized exit status, the batched restore fails, and the `AZURE-NPM`
flush fails — the fatal double-failure, so a non-nil error is returned. -/
theorem cleanupOtherIptables_error_iff_witness :
    (cleanupOtherIptables
        ⟨.exitErr 9 "unexpected", .exitErr 9 "unexpected",
         .ok [IptablesAzureChain], false, .exitErr 1 "cannot flush",
         fun _ => .success "", fun _ => .success ""⟩).err ≠ none :=
  (cleanupOtherIptables_error_iff
      ⟨.exitErr 9 "unexpected", .exitErr 9 "unexpected",
       .ok [IptablesAzureChain], false, .exitErr 1 "cannot flush",
       fun _ => .success "", fun _ => .success ""⟩).mpr
    (Or.inr ⟨[IptablesAzureChain], rfl, by decide, rfl, by decide, by decide, by decide⟩)

end AzureNpm
